import Mathlib

/-!
Verification of the HyzeOS `hex_fetch` module (`src/hex_fetch.rs`).

The module gathers CPU identity via the `cpuid` instruction, low-memory size
from the BIOS data area at 0x413, and a tick counter from 0x46C, then renders
a fixed-layout colored report through a `Writer`.  The hardware reads are
modelled as injected inputs (the register-query function, the 16-bit base
memory value, the 32-bit tick count), and the `Writer` as a trace of the
operations invoked on it.  Register values and bytes are `Nat`s; `u32`
truncation is made explicit with `% 256` steps where the source converts to
bytes.
-/

namespace HexFetch

/-- Byte list of an ASCII string literal (all string literals in the source
are ASCII, where `char = byte`); mirrors Rust `str::as_bytes`. -/
def bytes (s : String) : List Nat := s.data.map Char.toNat

/-- The 16-entry VGA text-mode color enumeration (`vga_colors::Color`),
an external collaborator consumed through `Writer::set_color`. -/
inductive Color where
  | Black
  | Blue
  | Green
  | Cyan
  | Red
  | Magenta
  | Brown
  | LightGray
  | DarkGray
  | LightBlue
  | LightGreen
  | LightCyan
  | LightRed
  | Pink
  | Yellow
  | White
deriving DecidableEq

/-- One operation invoked on the `Writer` collaborator. -/
inductive WriteOp where
  | set_color (fg bg : Color)
  | write_str (s : List Nat)
  | write_byte (b : Nat)
deriving DecidableEq

/-- The four 32-bit registers returned by the `cpuid` wrapper
(`fn cpuid(function: u32) -> (u32, u32, u32, u32)`), in source order
eax, ebx, ecx, edx. -/
structure Regs where
  eax : Nat
  ebx : Nat
  ecx : Nat
  edx : Nat

/-- `u32::to_le_bytes`: the four little-endian bytes of a 32-bit value. -/
def to_le_bytes (n : Nat) : List Nat :=
  [n % 256, n / 256 % 256, n / 65536 % 256, n / 16777216 % 256]

/-- `struct CpuInfo { vendor: [u8; 12], brand: [u8; 48], has_brand: bool }`. -/
structure CpuInfo where
  vendor : List Nat
  brand : List Nat
  has_brand : Bool

/-- The 16 bytes the brand loop body writes at offset `16 * i`:
`cpuid(0x80000002 + i)` packed eax, ebx, ecx, edx, each little-endian. -/
def brand_leaf (cpuid : Nat → Regs) (i : Nat) : List Nat :=
  let r := cpuid (0x80000002 + i)
  to_le_bytes r.eax ++ to_le_bytes r.ebx ++ to_le_bytes r.ecx ++ to_le_bytes r.edx

/-- `CpuInfo::detect`, with the `cpuid` instruction injected.  The vendor
buffer is `ebx ++ edx ++ ecx` of leaf 0 (offsets 0..4, 4..8, 8..12); the
brand buffer is filled by the loop `for i in 0..3` from leaves
0x80000002..0x80000004 when `max_ext >= 0x80000004`, else left all zero. -/
def CpuInfo.detect (cpuid : Nat → Regs) : CpuInfo :=
  let r0 := cpuid 0
  let vendor := to_le_bytes r0.ebx ++ to_le_bytes r0.edx ++ to_le_bytes r0.ecx
  let rext := cpuid 0x80000000
  if 0x80000004 ≤ rext.eax then
    ⟨vendor, brand_leaf cpuid 0 ++ brand_leaf cpuid 1 ++ brand_leaf cpuid 2, true⟩
  else
    ⟨vendor, List.replicate 48 0, false⟩

/-- Whether a byte is a UTF-8 continuation byte (0x80..0xBF). -/
def utf8_cont (b : Nat) : Bool := decide (0x80 ≤ b ∧ b ≤ 0xBF)

/-- UTF-8 validity of a byte sequence, as checked by
`core::str::from_utf8`: ASCII, or a 2/3/4-byte sequence with the standard
lead-byte ranges, rejecting overlong encodings (leads 0x80..0xC1, and the
restricted second-byte ranges after 0xE0 and 0xF0), surrogates (after 0xED)
and code points above U+10FFFF (after 0xF4 and leads 0xF5..0xFF). -/
def utf8_valid : List Nat → Bool
  | [] => true
  | b :: rest =>
    if b < 0x80 then utf8_valid rest
    else if b < 0xC2 then false
    else if b < 0xE0 then
      match rest with
      | b1 :: rest2 => utf8_cont b1 && utf8_valid rest2
      | [] => false
    else if b < 0xF0 then
      match rest with
      | b1 :: b2 :: rest3 =>
        (if b = 0xE0 then decide (0xA0 ≤ b1 ∧ b1 ≤ 0xBF)
         else if b = 0xED then decide (0x80 ≤ b1 ∧ b1 ≤ 0x9F)
         else utf8_cont b1) && utf8_cont b2 && utf8_valid rest3
      | _ => false
    else if b ≤ 0xF4 then
      match rest with
      | b1 :: b2 :: b3 :: rest4 =>
        (if b = 0xF0 then decide (0x90 ≤ b1 ∧ b1 ≤ 0xBF)
         else if b = 0xF4 then decide (0x80 ≤ b1 ∧ b1 ≤ 0x8F)
         else utf8_cont b1) && utf8_cont b2 && utf8_cont b3 && utf8_valid rest4
      | _ => false
    else false

/-- `CpuInfo::vendor_str`: decode the vendor buffer, falling back to the
literal `"Unknown"` on invalid UTF-8 (`from_utf8(..).unwrap_or("Unknown")`). -/
def CpuInfo.vendor_str (info : CpuInfo) : List Nat :=
  if utf8_valid info.vendor then info.vendor else bytes "Unknown"

/-- The predicate of `brand_str`'s `trim_matches`: the char is `'\0'` or
`' '`.  Both are single-byte chars and never occur inside a multi-byte
UTF-8 sequence, so char-level trimming equals byte-level trimming here. -/
def trim_byte (b : Nat) : Bool := b == 0 || b == 32

/-- `str::trim_matches` for the `'\0'`/`' '` predicate: drop matching bytes
from the front, then from the back. -/
def trim_matches (s : List Nat) : List Nat :=
  (((s.dropWhile trim_byte).reverse.dropWhile trim_byte)).reverse

/-- `CpuInfo::brand_str`: if brand support was detected, decode the brand
buffer (fallback `"Unknown"`) and trim `'\0'`/`' '` from both ends;
otherwise return `vendor_str()`. -/
def CpuInfo.brand_str (info : CpuInfo) : List Nat :=
  if info.has_brand then
    trim_matches (if utf8_valid info.brand then info.brand else bytes "Unknown")
  else
    info.vendor_str

/-- `detect_memory_kb`, with the 16-bit value read from 0x413 injected:
`(base_mem as u32) + 128 * 1024`. -/
def detect_memory_kb (base_mem : Nat) : Nat := base_mem + 128 * 1024

/-- `get_uptime_seconds`, with the 32-bit tick count read from 0x46C
injected: `ticks / 18`. -/
def get_uptime_seconds (ticks : Nat) : Nat := ticks / 18

/-- The digit bytes pushed into `write_number`'s 10-byte `buf`, least
significant first: the loop `while n > 0 { buf[i] = b'0' + (n % 10); n /= 10 }`.
`fuel` bounds the iteration count to keep the recursion structural; the loop
strictly decreases `n`, so any `fuel ≥ n` gives the loop's exact result. -/
def number_digits : Nat → Nat → List Nat
  | _, 0 => []
  | 0, _ + 1 => []
  | fuel + 1, n + 1 => (48 + (n + 1) % 10) :: number_digits fuel ((n + 1) / 10)

/-- `write_number`: `"0"` for zero, else the buffered digits written back
most-significant first (the second loop walks `buf` in reverse). -/
def write_number (n : Nat) : List WriteOp :=
  if n = 0 then [WriteOp.write_str (bytes "0")]
  else ((number_digits n n).reverse).map WriteOp.write_byte

/-- `write_uptime`: `"{h}h "` only when `hours > 0`, then always
`"{m}m {s}s"`. -/
def write_uptime (hours minutes seconds : Nat) : List WriteOp :=
  (if 0 < hours then write_number hours ++ [WriteOp.write_str (bytes "h ")] else [])
  ++ write_number minutes ++ [WriteOp.write_str (bytes "m ")]
  ++ write_number seconds ++ [WriteOp.write_str (bytes "s")]

/-- `write_truncated`: the whole string when `bytes.len() <= max_len`, else
the bytes `bytes[0] .. bytes[max_len - 1]` written one by one. -/
def write_truncated (s : List Nat) (max_len : Nat) : List WriteOp :=
  if s.length ≤ max_len then [WriteOp.write_str s]
  else (List.range max_len).map (fun i => WriteOp.write_byte (s.getD i 0))

/-- The first palette row's `match i` (base colors). -/
def palette_row1 (i : Nat) : Color :=
  match i with
  | 0 => Color.Black
  | 1 => Color.Red
  | 2 => Color.Green
  | 3 => Color.Brown
  | 4 => Color.Blue
  | 5 => Color.Magenta
  | 6 => Color.Cyan
  | 7 => Color.LightGray
  | _ => Color.Black

/-- The second palette row's `match i` (bright colors). -/
def palette_row2 (i : Nat) : Color :=
  match i with
  | 0 => Color.DarkGray
  | 1 => Color.LightRed
  | 2 => Color.LightGreen
  | 3 => Color.Yellow
  | 4 => Color.LightBlue
  | 5 => Color.Pink
  | 6 => Color.LightCyan
  | 7 => Color.White
  | _ => Color.Black

/-- `HexFetch::fetch`, as the trace of `Writer` operations it performs, with
the three hardware inputs injected: the `cpuid` function, the 16-bit base
memory value at 0x413, and the 32-bit tick count at 0x46C. -/
def fetch (cpuid : Nat → Regs) (base_mem ticks : Nat) : List WriteOp :=
  let cpu := CpuInfo.detect cpuid
  let memory_kb := detect_memory_kb base_mem
  let memory_mb := memory_kb / 1024
  let uptime := get_uptime_seconds ticks
  let hours := uptime / 3600
  let minutes := uptime % 3600 / 60
  let seconds := uptime % 60
  [WriteOp.set_color Color.LightCyan Color.Black,
   WriteOp.write_str (bytes "    __  __          _            "),
   WriteOp.set_color Color.Yellow Color.Black,
   WriteOp.write_str (bytes "OS: "),
   WriteOp.set_color Color.White Color.Black,
   WriteOp.write_str (bytes "HyzeOS\n"),
   WriteOp.set_color Color.LightCyan Color.Black,
   WriteOp.write_str (bytes "   / / / /__  _  __(_)_  ______ _"),
   WriteOp.set_color Color.Yellow Color.Black,
   WriteOp.write_str (bytes "Kernel: "),
   WriteOp.set_color Color.White Color.Black,
   WriteOp.write_str (bytes "0.1.0\n"),
   WriteOp.set_color Color.LightCyan Color.Black,
   WriteOp.write_str (bytes "  / /_/ / _ \\| |/_/ / / / / __ `/"),
   WriteOp.set_color Color.Yellow Color.Black,
   WriteOp.write_str (bytes "Uptime: "),
   WriteOp.set_color Color.White Color.Black]
  ++ write_uptime hours minutes seconds
  ++ [WriteOp.write_str (bytes "\n"),
   WriteOp.set_color Color.LightCyan Color.Black,
   WriteOp.write_str (bytes " / __  /  __/>  </ / /_/ / /_/ / "),
   WriteOp.set_color Color.Yellow Color.Black,
   WriteOp.write_str (bytes "Shell: "),
   WriteOp.set_color Color.White Color.Black,
   WriteOp.write_str (bytes "HexShell\n"),
   WriteOp.set_color Color.LightCyan Color.Black,
   WriteOp.write_str (bytes "/_/ /_/\\___/_/|_/_/\\__,_/\\__,_/  "),
   WriteOp.set_color Color.Yellow Color.Black,
   WriteOp.write_str (bytes "CPU: "),
   WriteOp.set_color Color.White Color.Black]
  ++ write_truncated cpu.brand_str 25
  ++ [WriteOp.write_str (bytes "\n"),
   WriteOp.set_color Color.LightCyan Color.Black,
   WriteOp.write_str (bytes "                                 "),
   WriteOp.set_color Color.Yellow Color.Black,
   WriteOp.write_str (bytes "Memory: "),
   WriteOp.set_color Color.White Color.Black]
  ++ write_number memory_mb
  ++ [WriteOp.write_str (bytes " MB\n"),
   WriteOp.set_color Color.LightCyan Color.Black,
   WriteOp.write_str (bytes "                                 "),
   WriteOp.set_color Color.Yellow Color.Black,
   WriteOp.write_str (bytes "Arch: "),
   WriteOp.set_color Color.White Color.Black,
   WriteOp.write_str (bytes "i386\n"),
   WriteOp.write_str (bytes "\n    ")]
  ++ ((List.range 8).map (fun i =>
      [WriteOp.set_color (palette_row1 i) (palette_row1 i),
       WriteOp.write_str (bytes "  ")])).flatten
  ++ [WriteOp.set_color Color.White Color.Black,
   WriteOp.write_str (bytes "\n    ")]
  ++ ((List.range 8).map (fun i =>
      [WriteOp.set_color (palette_row2 i) (palette_row2 i),
       WriteOp.write_str (bytes "  ")])).flatten
  ++ [WriteOp.set_color Color.White Color.Black,
   WriteOp.write_str (bytes "\n")]

/-- The bytes an operation appends to the display (`set_color` appends
nothing). -/
def op_bytes : WriteOp → List Nat
  | WriteOp.set_color _ _ => []
  | WriteOp.write_str s => s
  | WriteOp.write_byte b => [b]

/-- All bytes emitted by a trace of writer operations, in order. -/
def emitted (ops : List WriteOp) : List Nat := (ops.map op_bytes).flatten

/-- Whether `pat` occurs as a contiguous run inside `l`. -/
def has_run (pat : List WriteOp) : List WriteOp → Bool
  | [] => pat.isEmpty
  | x :: t => pat.isPrefixOf (x :: t) || has_run pat t

/-- The mocked register query of the end-to-end test: leaf 0 reports vendor
`"GenuineIntel"` (ebx `"Genu"`, edx `"ineI"`, ecx `"ntel"`, little-endian),
every other leaf reports eax `0x80000000`, so the maximum extended selector
is below `0x80000004` and no brand is available. -/
def qGenuineIntel : Nat → Regs := fun f =>
  if f = 0 then ⟨1, 0x756e6547, 0x6c65746e, 0x49656e69⟩
  else ⟨0x80000000, 0, 0, 0⟩

/-- The decimal ASCII representation of `n` without leading zeros, stated
through Mathlib's `Nat.digits` (little-endian digit list, no trailing
zeros): the reference the formatting claims compare against. -/
def decimal_ascii (n : Nat) : List Nat :=
  if n = 0 then [48] else ((Nat.digits 10 n).map (fun d => 48 + d)).reverse

theorem emitted_cons (x : WriteOp) (l : List WriteOp) :
    emitted (x :: l) = op_bytes x ++ emitted l := rfl

theorem emitted_append (l1 l2 : List WriteOp) :
    emitted (l1 ++ l2) = emitted l1 ++ emitted l2 := by
  simp [emitted]

theorem emitted_single_str (s : List Nat) :
    emitted [WriteOp.write_str s] = s := by
  simp [emitted, op_bytes]

theorem emitted_map_write_byte (l : List Nat) :
    emitted (l.map WriteOp.write_byte) = l := by
  induction l with
  | nil => rfl
  | cons a t ih => rw [List.map_cons, emitted_cons, ih]; rfl

theorem number_digits_spec : ∀ fuel n : Nat, n ≤ fuel →
    number_digits fuel n = (Nat.digits 10 n).map (fun d => 48 + d) := by
  intro fuel
  induction fuel with
  | zero =>
    intro n hn
    have h0 : n = 0 := by omega
    subst h0
    simp [number_digits]
  | succ f ih =>
    intro n hn
    match n with
    | 0 => simp [number_digits]
    | m + 1 =>
      rw [show number_digits (f + 1) (m + 1)
            = (48 + (m + 1) % 10) :: number_digits f ((m + 1) / 10) from rfl]
      rw [Nat.digits_def' (b := 10) (by norm_num) (Nat.succ_pos m), List.map_cons]
      congr 1
      exact ih ((m + 1) / 10) (by omega)

theorem write_number_emitted (n : Nat) :
    emitted (write_number n) = decimal_ascii n := by
  by_cases h0 : n = 0
  · subst h0; decide
  · unfold write_number decimal_ascii
    rw [if_neg h0, if_neg h0, emitted_map_write_byte, number_digits_spec n n le_rfl]

theorem digits_len_le_of_lt_pow : ∀ k n : Nat, n < 10 ^ k →
    (Nat.digits 10 n).length ≤ k := by
  intro k
  induction k with
  | zero =>
    intro n h
    have h0 : n = 0 := by omega
    subst h0
    simp
  | succ k ih =>
    intro n h
    rcases Nat.eq_zero_or_pos n with h0 | h0
    · subst h0; simp
    · rw [Nat.digits_def' (b := 10) (by norm_num) h0, List.length_cons]
      have hd : n / 10 < 10 ^ k := by
        have hp : 10 ^ (k + 1) = 10 ^ k * 10 := pow_succ 10 k
        omega
      exact Nat.succ_le_succ (ih _ hd)

theorem range_map_getD (s : List Nat) : ∀ l : Nat, l ≤ s.length →
    (List.range l).map (fun i => s.getD i 0) = s.take l := by
  intro l
  induction l with
  | zero => intro _; simp
  | succ k ih =>
    intro hk
    have hklt : k < s.length := by omega
    rw [List.range_succ, List.map_append, ih (by omega), List.map_singleton,
      List.take_succ, List.getD_eq_getElem?_getD, List.getElem?_eq_getElem hklt]
    rfl

/-- C3: for every 16-bit base value in [0, 65535] read from 0x413,
`detect_memory_kb` returns exactly `base + 131072` (the base widened to 32
bits plus the fixed 128 MiB constant), with no other dependence on input. -/
theorem detect_memory_kb_spec (base : Nat) (h : base ≤ 65535) :
    detect_memory_kb base = base + 131072 := rfl

theorem detect_memory_kb_spec_witness : detect_memory_kb 2048 = 2048 + 131072 :=
  detect_memory_kb_spec 2048 (by norm_num)

/-- C4: for every 32-bit tick count, `get_uptime_seconds` returns
`ticks / 18` by truncating division, and the hours/minutes/seconds
decomposition of the resulting uptime `u` computed by `fetch`
(`u / 3600`, `u % 3600 / 60`, `u % 60`) recombines to exactly `u`. -/
theorem get_uptime_seconds_spec (ticks : Nat) (h : ticks ≤ 4294967295) :
    get_uptime_seconds ticks = ticks / 18
    ∧ get_uptime_seconds ticks / 3600 * 3600 + get_uptime_seconds ticks % 3600 / 60 * 60
        + get_uptime_seconds ticks % 60 = get_uptime_seconds ticks := by
  refine ⟨rfl, ?_⟩
  unfold get_uptime_seconds
  omega

theorem get_uptime_seconds_spec_witness :
    get_uptime_seconds 1800 = 1800 / 18
    ∧ get_uptime_seconds 1800 / 3600 * 3600 + get_uptime_seconds 1800 % 3600 / 60 * 60
        + get_uptime_seconds 1800 % 60 = get_uptime_seconds 1800 :=
  get_uptime_seconds_spec 1800 (by norm_num)

/-- C5: for every unsigned 32-bit `n`, `write_number` emits exactly the
decimal ASCII representation of `n` with no leading zeros (a single `"0"`
for zero, else the reversed base-10 digit list offset by `'0'`, whose first
byte is never `'0'`); `write_number 0` emits `"0"`, `write_number 4294967295`
emits the 10 characters `"4294967295"`, and the digits placed in the 10-byte
scratch buffer never exceed its capacity (no out-of-bounds index). -/
theorem write_number_spec (n : Nat) (h : n < 4294967296) :
    emitted (write_number n) = decimal_ascii n
    ∧ (n ≠ 0 → (emitted (write_number n)).head? ≠ some 48)
    ∧ (number_digits n n).length ≤ 10
    ∧ emitted (write_number 0) = bytes "0"
    ∧ emitted (write_number 4294967295) = bytes "4294967295" := by
  refine ⟨write_number_emitted n, ?_, ?_, by decide, by decide⟩
  · intro hn
    have hne : Nat.digits 10 n ≠ [] := Nat.digits_ne_nil_iff_ne_zero.mpr hn
    have hlast := Nat.getLast_digit_ne_zero 10 hn
    intro hEq
    rw [write_number_emitted, decimal_ascii, if_neg hn, List.head?_reverse,
      List.getLast?_map, List.getLast?_eq_getLast _ hne] at hEq
    simp only [Option.map_some', Option.some.injEq] at hEq
    omega
  · rw [number_digits_spec n n le_rfl, List.length_map]
    exact digits_len_le_of_lt_pow 10 n (lt_of_lt_of_le h (by norm_num))

theorem write_number_spec_witness :
    emitted (write_number 4294967295) = decimal_ascii 4294967295
    ∧ (4294967295 ≠ 0 → (emitted (write_number 4294967295)).head? ≠ some 48)
    ∧ (number_digits 4294967295 4294967295).length ≤ 10
    ∧ emitted (write_number 0) = bytes "0"
    ∧ emitted (write_number 4294967295) = bytes "4294967295" :=
  write_number_spec 4294967295 (by norm_num)

/-- C6: for all `h m s`, `write_uptime` emits the decimal of `h` followed by
`"h "` exactly when `h > 0`, then always `"{m}m {s}s"` even when `m` or `s`
is zero; `write_uptime 0 5 9` emits `"5m 9s"` and `write_uptime 2 0 0`
emits `"2h 0m 0s"`. -/
theorem write_uptime_spec (h m s : Nat) :
    emitted (write_uptime h m s)
      = (if 0 < h then decimal_ascii h ++ bytes "h " else [])
        ++ decimal_ascii m ++ bytes "m " ++ decimal_ascii s ++ bytes "s"
    ∧ emitted (write_uptime 0 5 9) = bytes "5m 9s"
    ∧ emitted (write_uptime 2 0 0) = bytes "2h 0m 0s" := by
  refine ⟨?_, by decide, by decide⟩
  unfold write_uptime
  by_cases hh : 0 < h
  · rw [if_pos hh, if_pos hh]
    simp only [emitted_append, write_number_emitted, emitted_single_str, List.append_assoc]
  · rw [if_neg hh, if_neg hh]
    simp only [List.nil_append, emitted_append, write_number_emitted, emitted_single_str,
      List.append_assoc]

/-- C7: for every byte string `s` and limit, `write_truncated` emits exactly
the first `limit` bytes of `s` when `s` is longer than the limit (a byte-wise
cut), and the whole string otherwise; `write_truncated "abcdefgh" 5` emits
`"abcde"` and `write_truncated "abc" 5` emits `"abc"`. -/
theorem write_truncated_spec (s : List Nat) (max_len : Nat) :
    emitted (write_truncated s max_len)
      = (if max_len < s.length then s.take max_len else s)
    ∧ emitted (write_truncated (bytes "abcdefgh") 5) = bytes "abcde"
    ∧ emitted (write_truncated (bytes "abc") 5) = bytes "abc" := by
  refine ⟨?_, by decide, by decide⟩
  unfold write_truncated
  by_cases hle : s.length ≤ max_len
  · rw [if_pos hle, if_neg (by omega)]
    exact emitted_single_str s
  · rw [if_neg hle, if_pos (by omega)]
    have hmap : (List.range max_len).map (fun i => WriteOp.write_byte (s.getD i 0))
        = ((List.range max_len).map (fun i => s.getD i 0)).map WriteOp.write_byte := by
      rw [List.map_map]; rfl
    rw [hmap, emitted_map_write_byte, range_map_getD s max_len (by omega)]

/-- C1 (counterexample): with the injected register query answering
`(0, 255, 0, 0)` for every selector — four legal 32-bit values — the vendor
buffer starts with the byte 0xFF, which is not valid UTF-8, so `vendor_str`
falls back to the 7-byte `"Unknown"`: its length is not 12. -/
theorem vendor_str_not_always_packed :
    (CpuInfo.detect (fun _ => ⟨0, 255, 0, 0⟩)).vendor_str.length ≠ 12 := by decide

/-- C1 (amended): for every injected register-query result for selector 0
whose 12 packed bytes (second, fourth, third register, each as 4
little-endian bytes) are valid UTF-8, after `detect` the string returned by
`vendor_str` is byte-identical to those packed bytes and has length
exactly 12. -/
theorem vendor_str_packed_of_valid_utf8 (q : Nat → Regs)
    (h : utf8_valid (to_le_bytes (q 0).ebx ++ to_le_bytes (q 0).edx
        ++ to_le_bytes (q 0).ecx) = true) :
    (CpuInfo.detect q).vendor_str
      = to_le_bytes (q 0).ebx ++ to_le_bytes (q 0).edx ++ to_le_bytes (q 0).ecx
    ∧ (CpuInfo.detect q).vendor_str.length = 12 := by
  have hv : (CpuInfo.detect q).vendor
      = to_le_bytes (q 0).ebx ++ to_le_bytes (q 0).edx ++ to_le_bytes (q 0).ecx := by
    simp only [CpuInfo.detect]
    split <;> rfl
  have hs : (CpuInfo.detect q).vendor_str
      = to_le_bytes (q 0).ebx ++ to_le_bytes (q 0).edx ++ to_le_bytes (q 0).ecx := by
    unfold CpuInfo.vendor_str
    rw [hv, if_pos h]
  exact ⟨hs, by rw [hs]; simp [to_le_bytes]⟩

theorem vendor_str_packed_of_valid_utf8_witness :
    (CpuInfo.detect qGenuineIntel).vendor_str
      = to_le_bytes (qGenuineIntel 0).ebx ++ to_le_bytes (qGenuineIntel 0).edx
        ++ to_le_bytes (qGenuineIntel 0).ecx
    ∧ (CpuInfo.detect qGenuineIntel).vendor_str.length = 12 :=
  vendor_str_packed_of_valid_utf8 qGenuineIntel (by decide)

/-- C2: with the mocked register query reporting vendor `"GenuineIntel"` for
selector 0 and a maximum extended selector below 0x80000004, base memory
value 2048 and tick count 1800, the rendered report contains the CPU line
run showing `"GenuineIntel"`, the Memory line run showing `"130 MB"`, and
the Uptime line run showing exactly `"1m 40s"` up to its newline — no hours
component. -/
theorem fetch_end_to_end_genuine_intel :
    has_run [WriteOp.set_color Color.Yellow Color.Black, WriteOp.write_str (bytes "CPU: "),
        WriteOp.set_color Color.White Color.Black, WriteOp.write_str (bytes "GenuineIntel"),
        WriteOp.write_str (bytes "\n")]
      (fetch qGenuineIntel 2048 1800) = true
    ∧ has_run [WriteOp.set_color Color.Yellow Color.Black, WriteOp.write_str (bytes "Memory: "),
        WriteOp.set_color Color.White Color.Black, WriteOp.write_byte 49, WriteOp.write_byte 51,
        WriteOp.write_byte 48, WriteOp.write_str (bytes " MB\n")]
      (fetch qGenuineIntel 2048 1800) = true
    ∧ has_run [WriteOp.set_color Color.Yellow Color.Black, WriteOp.write_str (bytes "Uptime: "),
        WriteOp.set_color Color.White Color.Black, WriteOp.write_byte 49,
        WriteOp.write_str (bytes "m "), WriteOp.write_byte 52, WriteOp.write_byte 48,
        WriteOp.write_str (bytes "s"), WriteOp.write_str (bytes "\n")]
      (fetch qGenuineIntel 2048 1800) = true := by
  refine ⟨?_, ?_, ?_⟩ <;> decide

/-- C8: for every `CpuInfo` state, `brand_str` returns `vendor_str` when
`has_brand` is false, and otherwise the 48-byte brand buffer decoded as text
(falling back to `"Unknown"` on invalid encoding) with all leading and
trailing null bytes and space characters stripped. -/
theorem brand_str_spec (info : CpuInfo) :
    info.brand_str =
      (if info.has_brand then
        (((if utf8_valid info.brand then info.brand else bytes "Unknown").dropWhile
            trim_byte).reverse.dropWhile trim_byte).reverse
      else info.vendor_str) := rfl

/-- C9: for every injected register query, `detect` fully populates the
12-byte vendor buffer from the selector-0 registers, and either fully
populates the 48-byte brand buffer (16 bytes from each of selectors
0x80000002..0x80000004, registers packed primary, second, third, fourth,
each little-endian) with `has_brand` true when the maximum extended selector
is at least 0x80000004, or leaves it entirely zero with `has_brand` false. -/
theorem detect_invariant (q : Nat → Regs) :
    (CpuInfo.detect q).vendor
        = to_le_bytes (q 0).ebx ++ to_le_bytes (q 0).edx ++ to_le_bytes (q 0).ecx
    ∧ (CpuInfo.detect q).vendor.length = 12
    ∧ (CpuInfo.detect q).brand.length = 48
    ∧ (CpuInfo.detect q).has_brand = decide (0x80000004 ≤ (q 0x80000000).eax)
    ∧ (CpuInfo.detect q).brand =
        (if 0x80000004 ≤ (q 0x80000000).eax then
          to_le_bytes (q 0x80000002).eax ++ to_le_bytes (q 0x80000002).ebx
            ++ to_le_bytes (q 0x80000002).ecx ++ to_le_bytes (q 0x80000002).edx
            ++ to_le_bytes (q 0x80000003).eax ++ to_le_bytes (q 0x80000003).ebx
            ++ to_le_bytes (q 0x80000003).ecx ++ to_le_bytes (q 0x80000003).edx
            ++ to_le_bytes (q 0x80000004).eax ++ to_le_bytes (q 0x80000004).ebx
            ++ to_le_bytes (q 0x80000004).ecx ++ to_le_bytes (q 0x80000004).edx
        else List.replicate 48 0) := by
  by_cases hc : 0x80000004 ≤ (q 0x80000000).eax
  · simp [CpuInfo.detect, brand_leaf, hc, to_le_bytes, List.append_assoc]
  · simp [CpuInfo.detect, brand_leaf, hc, to_le_bytes]

/-- C10: `fetch` is deterministic with respect to its injected hardware
inputs — equal register-query functions, equal base memory values and equal
tick counts give the identical sequence of writer operations (every
`set_color` pair, string and byte, in order). -/
theorem fetch_deterministic (q q' : Nat → Regs) (base base' ticks ticks' : Nat)
    (hq : q = q') (hb : base = base') (ht : ticks = ticks') :
    fetch q base ticks = fetch q' base' ticks' := by
  subst hq
  subst hb
  subst ht
  rfl

theorem fetch_deterministic_witness :
    fetch qGenuineIntel 2048 1800 = fetch qGenuineIntel 2048 1800 :=
  fetch_deterministic qGenuineIntel qGenuineIntel 2048 2048 1800 1800 rfl rfl rfl

end HexFetch
